import Mathlib

/-!
Verification of the session-relay subsystem of `server.js` (aiMessage).

The relevant parts of the source are shallowly embedded below.  JavaScript
strings and byte streams are modelled as `List Char` (`Str`); the six global
`Map`s of the server are modelled as association lists inside `ServerState`;
timestamps (`Date.now()`, ISO strings) are modelled as `Nat` milliseconds and
the current time is passed explicitly as `now`.  Filesystem reads (the Claude
projects catalog, `meta.json`) are pure inputs: a `List CatalogEntry` stands
for the deduplicated per-file records that `loadSessionIndex` discovers on
disk, and a `MetaStore` stands for the parsed `meta.json`.  External side
effects (killing tmux, closing a WebSocket, writing to a pty) are recorded as
an `Event` trace returned next to the new state, in the order the source
performs them.  The 5s list cache of `loadSessionIndex` is not modelled (every
mutating handler calls `invalidateSessionCache`, so each modelled query
recomputes); fields that no claim mentions (display name, project colors,
message counts in meta) are omitted where noted.
-/

/-- Characters of a JavaScript string; all text is modelled at this level
because the relay treats terminal output as an opaque byte stream. -/
abbrev Str := List Char

/-- JavaScript `String.prototype.includes`: `pat` occurs contiguously in `s`. -/
def occurs (pat : Str) : Str → Bool
  | [] => pat.isEmpty
  | s@(_ :: t) => pat.isPrefixOf s || occurs pat t

/-- JavaScript `String.prototype.toLowerCase` (ASCII suffices for the literals
the source compares against). -/
def toLowerL (s : Str) : Str := s.map Char.toLower

/-- JavaScript `String.prototype.trim`. -/
def trimL (s : Str) : Str :=
  ((s.dropWhile Char.isWhitespace).reverse.dropWhile Char.isWhitespace).reverse

/-- server.js line 31: `SCROLLBACK_SIZE = 100 * 1024` (100 KiB per session). -/
def SCROLLBACK_SIZE : Nat := 100 * 1024

/-- server.js line 32: `IDLE_TIMEOUT_MS = 30 * 1000`. -/
def IDLE_TIMEOUT_MS : Nat := 30 * 1000

/-- Stand-in for `process.env.HOME` (server.js line 12), used as the default
working directory; its concrete value is irrelevant to every claim. -/
def homeDir : Str := "/Users/maxwraae".toList

/-- The four status strings stored in `session.status`. -/
inductive Status
  | running
  | idle
  | done
  | error
deriving DecidableEq, Repr

/-- A value of the `activeSessions` map (server.js lines 633-643, 481-487,
891-897).  The `name`, `group`, `createdAt` and `messageCount` fields carried
by some of these objects are omitted: no claim mentions them. -/
structure SessionRec where
  status : Status
  lastActivity : Nat
  preview : Option Str
  workingDir : Str
deriving DecidableEq, Repr

/-- One deduplicated catalog record as discovered on disk by
`loadSessionIndex` (server.js lines 252-315): either an entry of a
`sessions-index.json` file or the result of `extractSessionMetadata` on a
`.jsonl` file.  The file reading itself is I/O and is modelled by passing the
discovered records as input. -/
structure CatalogEntry where
  sessionId : String
  firstPrompt : Option Str
  summary : Option Str
  created : Nat
  modified : Nat
  isSidechain : Bool
  projectPath : Option Str
  messageCount : Nat
deriving DecidableEq, Repr

/-- One entry of `meta.json`'s `sessions` table (server.js lines 352-367).
`customName` feeds only the display name, which is omitted from views. -/
structure MetaSession where
  customName : Option Str := none
  project : Option Str := none
  pinned : Bool := false
  archived : Bool := false
deriving DecidableEq, Repr

/-- The parsed `meta.json` `sessions` map (projects table omitted: it only
contributes display colors/icons). -/
abbrev MetaStore := List (String × MetaSession)

/-- Association-list lookup, modelling JavaScript `Map.prototype.get`. -/
def lookupA {α β : Type} [DecidableEq α] : List (α × β) → α → Option β
  | [], _ => none
  | (k, v) :: t, key => if k = key then some v else lookupA t key

/-- Association-list update, modelling JavaScript `Map.prototype.set`. -/
def updA {α β : Type} [DecidableEq α] : List (α × β) → α → β → List (α × β)
  | [], key, v => [(key, v)]
  | (k, w) :: t, key, v => if k = key then (key, v) :: t else (k, w) :: updA t key v

/-- Association-list removal, modelling JavaScript `Map.prototype.delete`. -/
def eraseA {α β : Type} [DecidableEq α] (l : List (α × β)) (key : α) : List (α × β) :=
  l.filter (fun p => p.1 != key)

/-- Set-like insertion into a key list, modelling `Map.prototype.set` where
only the presence of the key matters (the pty handle values are external). -/
def setP (l : List String) (id : String) : List String :=
  if id ∈ l then l else id :: l

/-- Key removal from a key list, modelling `Map.prototype.delete` on
`ptyProcesses`. -/
def eraseP (l : List String) (id : String) : List String :=
  l.filter (fun x => x != id)

/-- The global mutable state of the relay: the six session-keyed maps declared
at server.js lines 79-88.  Observer channels (`WebSocket` objects) are
identified by `Nat` tags; pty handles are external resources, so
`ptyProcesses` records only which ids currently hold one. -/
structure ServerState where
  activeSessions : List (String × SessionRec)
  ptyProcesses : List String
  scrollbackBuffers : List (String × Str)
  wsClients : List (String × List Nat)
  lastOutputTime : List (String × Nat)
  lastInputTime : List (String × Nat)
deriving DecidableEq, Repr

/-- The state at relay start: every map empty. -/
def emptyState : ServerState := ⟨[], [], [], [], [], []⟩

/-- External side effects performed by the handlers, recorded in the order the
source performs them. -/
inductive Event
  | append (id : String) (data : Str)
  | broadcast (id : String) (data : Str)
  | closeWs (ch : Nat)
  | killPty (id : String)
  | killTmux (id : String)
  | writePty (id : String) (data : Str)
  | resizePty (id : String) (cols rows : Nat)
  | resizeTmux (id : String) (cols rows : Nat)
deriving DecidableEq, Repr

/-- True exactly on the two resize effects emitted by the control-frame branch
of the WebSocket message handler. -/
def isResizeEvent : Event → Bool
  | .resizePty _ _ _ => true
  | .resizeTmux _ _ _ => true
  | _ => false

/-- The concat-then-trim step of `appendScrollback` (server.js lines 404-408)
on a single buffer: append the chunk, then drop from the head whatever
exceeds the capacity `C`. -/
def scrollStep (C : Nat) (buf data : Str) : Str :=
  let combined := buf ++ data
  if combined.length > C then combined.drop (combined.length - C) else combined

/-- server.js lines 402-410, `appendScrollback`, with the capacity as a
parameter: read the session's buffer (or empty), concat-and-trim, store. -/
def appendScrollbackC (C : Nat) (bufs : List (String × Str)) (id : String) (data : Str) :
    List (String × Str) :=
  updA bufs id (scrollStep C ((lookupA bufs id).getD []) data)

/-- `appendScrollback` at the source's fixed capacity `SCROLLBACK_SIZE`. -/
def appendScrollback (bufs : List (String × Str)) (id : String) (data : Str) :
    List (String × Str) :=
  appendScrollbackC SCROLLBACK_SIZE bufs id data

/-- server.js lines 118-131, `deriveStatus`: a session present in
`activeSessions` reports its live status; otherwise the status is derived
from the age of the catalog record's `modified` timestamp.  JavaScript
subtraction of a future timestamp is negative and hence `< 60000`, matching
truncated `Nat` subtraction, which yields `0`. -/
def deriveStatus (s : ServerState) (entry : CatalogEntry) (now : Nat) : Status :=
  match lookupA s.activeSessions entry.sessionId with
  | some sess => sess.status
  | none =>
    let age := now - entry.modified
    if age < 60000 then .running
    else if age < 300000 then .done
    else .idle

/-- JavaScript falsiness of an optional string: absent or empty. -/
def falsyText : Option Str → Bool
  | none => true
  | some s => s.isEmpty

/-- The per-record filters of `loadSessionIndex` (server.js lines 259-264 for
index entries; lines 306-312 apply the same predicates to records extracted
from `.jsonl` files). -/
def keepCatalogEntry (e : CatalogEntry) : Bool :=
  !(e.sessionId == "")
  && !e.isSidechain
  && !(("you are a memory extraction system".toList).isPrefixOf
        (toLowerL (e.firstPrompt.getD [])))
  && !(("create these memory entities".toList).isPrefixOf
        (toLowerL (e.firstPrompt.getD [])))
  && !((("no prompt".toList).isPrefixOf (toLowerL (e.firstPrompt.getD [])))
        && falsyText e.summary)
  && !(decide (e.messageCount ≤ 1))

/-- The `allEntries` accumulation of `loadSessionIndex` (server.js lines
226-316): keep records passing the filters, first record per session id wins
(`if (!allEntries.has(...)) allEntries.set(...)`). -/
def collectEntries (catalog : List CatalogEntry) : List CatalogEntry :=
  catalog.foldl
    (fun acc e =>
      if keepCatalogEntry e && !(acc.any (fun f => f.sessionId == e.sessionId)) then
        acc ++ [e]
      else acc)
    []

/-- One record of the list returned by `loadSessionIndex` (server.js lines
336-346 plus the metadata overlay of lines 352-377).  The display `name`
(summary/first-prompt/custom-name derivation) and project color/icon are
omitted: no claim mentions them. -/
structure SessionView where
  id : String
  status : Status
  createdAt : Nat
  lastActivity : Nat
  preview : Str
  workingDir : Option Str
  messageCount : Nat
  group : Option Str
  pinned : Bool
  archived : Bool
deriving DecidableEq, Repr

/-- The catalog-derived preview (server.js lines 329-331): the trimmed first
prompt truncated to 150 characters, or empty when absent or the placeholder
text. -/
def catalogPreview (e : CatalogEntry) : Str :=
  match e.firstPrompt with
  | some fp => if fp.isEmpty || fp == "No prompt".toList then [] else (trimL fp).take 150
  | none => []

/-- server.js lines 336-346: build the view of one catalog record, overriding
`lastActivity` and `preview` (the latter only when the live preview is set and
non-empty) from the `activeSessions` entry when one exists, and the status via
`deriveStatus`. -/
def toView (s : ServerState) (now : Nat) (e : CatalogEntry) : SessionView :=
  { id := e.sessionId
    status := deriveStatus s e now
    createdAt := e.created
    lastActivity :=
      match lookupA s.activeSessions e.sessionId with
      | some a => a.lastActivity
      | none => e.modified
    preview :=
      match lookupA s.activeSessions e.sessionId with
      | some a =>
        match a.preview with
        | some p => if p.isEmpty then catalogPreview e else p
        | none => catalogPreview e
      | none => catalogPreview e
    workingDir := e.projectPath
    messageCount := e.messageCount
    group := none
    pinned := false
    archived := false }

/-- server.js lines 352-377: overlay the `meta.json` record — project label,
pin and archive flags (custom display name and project color omitted with the
`name` field). -/
def applyMeta (meta : MetaStore) (v : SessionView) : SessionView :=
  let m := (lookupA meta v.id).getD ⟨none, none, false, false⟩
  { v with
    group := match m.project with
      | some p => some p
      | none => v.group
    pinned := m.pinned
    archived := m.archived }

/-- The sort comparator of server.js lines 383-387: pinned sessions first,
then most recent `lastActivity` first. -/
def viewBefore (a b : SessionView) : Bool :=
  if a.pinned && !b.pinned then true
  else if !a.pinned && b.pinned then false
  else b.lastActivity ≤ a.lastActivity

/-- Insertion step of the stable sort used to model `Array.prototype.sort`
with `viewBefore` (only the comparator matters to the source's behavior; no
claim depends on the order). -/
def insertView (v : SessionView) : List SessionView → List SessionView
  | [] => [v]
  | w :: t => if viewBefore v w then v :: w :: t else w :: insertView v t

/-- Insertion sort by `viewBefore`. -/
def sortViews (l : List SessionView) : List SessionView :=
  l.foldr insertView []

/-- server.js lines 220-394, `loadSessionIndex`: map the discovered catalog
records to views, overlay `meta.json`, drop archived sessions unless
requested, sort.  The 5s cache (lines 222-224, 389-392) is omitted: every
handler below invalidates it. -/
def loadSessionIndex (catalog : List CatalogEntry) (meta : MetaStore) (s : ServerState)
    (now : Nat) (includeArchived : Bool) : List SessionView :=
  let entries := collectEntries catalog
  let list := entries.map (toView s now)
  let enriched := list.map (applyMeta meta)
  let filtered := if includeArchived then enriched else enriched.filter (fun v => !v.archived)
  sortViews filtered

/-- server.js lines 614-622, the GET handler for one session: find the id in
the (non-archived) session index; `none` models the 404 `NotFound` reply. -/
def getSession (catalog : List CatalogEntry) (meta : MetaStore) (s : ServerState)
    (now : Nat) (id : String) : Option SessionView :=
  (loadSessionIndex catalog meta s now false).find? (fun v => v.id == id)

/-- server.js lines 625-677, the POST handler creating a session: registers a
`running` record, an empty scrollback buffer and an empty observer set, then
starts the detached tmux spawn.  The spawn itself registers no pty handle —
that happens only in the delayed attach, `spawnAttach` below.  The fresh
UUID is passed in as `id`; the meta persistence, JSON reply and the 1.5s
delayed initial message are external effects no claim mentions. -/
def createSession (s : ServerState) (id : String) (workingDir : Option Str) (now : Nat) :
    ServerState :=
  let fresh : SessionRec :=
    { status := .running, lastActivity := now, preview := none,
      workingDir := workingDir.getD homeDir }
  { s with
    activeSessions := updA s.activeSessions id fresh
    scrollbackBuffers := updA s.scrollbackBuffers id []
    wsClients := updA s.wsClients id [] }

/-- server.js lines 517-531 (and identically lines 912-925): the delayed
attach fired 300 ms after the detached `tmux new-session` exits; only now is
a pty handle registered for the session. -/
def spawnAttach (s : ServerState) (id : String) : ServerState :=
  { s with ptyProcesses := setP s.ptyProcesses id }

/-- server.js lines 462-493, `reattachSession`: when the tmux session exists
(the existence probe result is passed in as `tmuxExists`), attach a pty
handle; if the session is not yet tracked in `activeSessions`, register it
with status `idle`; stamp `lastOutputTime`.  Returns `false` without any
state change when the tmux session does not exist. -/
def reattachSession (s : ServerState) (id : String) (tmuxExists : Bool)
    (workingDir : Option Str) (now : Nat) : Bool × ServerState :=
  if !tmuxExists then (false, s)
  else
    let s1 := { s with ptyProcesses := setP s.ptyProcesses id }
    let fresh : SessionRec :=
      { status := .idle, lastActivity := now, preview := none,
        workingDir := workingDir.getD homeDir }
    let s2 :=
      if (lookupA s1.activeSessions id).isSome then s1
      else { s1 with activeSessions := updA s1.activeSessions id fresh }
    (true, { s2 with lastOutputTime := updA s2.lastOutputTime id now })

/-- server.js lines 535-547, the pty `onData` listener: if the session is not
tracked, nothing happens; otherwise stamp activity and status `running`,
append to the scrollback, update the preview, then broadcast.  The pure text
extraction of `updatePreview` (ANSI stripping, junk filtering, last line,
truncation — lines 432-445) is abstracted as `previewOf`: `some p` when the
chunk yields a preview line `p`, `none` when it yields none; every theorem
below holds for all `previewOf`. -/
def ptyOnData (previewOf : Str → Option Str) (s : ServerState) (id : String) (data : Str)
    (now : Nat) : ServerState × List Event :=
  match lookupA s.activeSessions id with
  | none => (s, [])
  | some sess =>
    let sess1 := { sess with lastActivity := now, status := .running }
    let sess2 :=
      match previewOf data with
      | some p => { sess1 with preview := some p }
      | none => sess1
    ({ s with
        activeSessions := updA s.activeSessions id sess2
        lastOutputTime := updA s.lastOutputTime id now
        scrollbackBuffers := appendScrollback s.scrollbackBuffers id data },
      [.append id data, .broadcast id data])

/-- server.js line 560: the synthesized human-readable exit notice. -/
def exitNotice (exitCode : Nat) : Str :=
  ("\r\n\x1B[31m[Process exited with code " ++ toString exitCode ++ "]\x1B[0m\r\n").toList

/-- server.js lines 549-562, the pty `onExit` listener: mark the session
`done` (exit code 0) or `error` (nonzero) when it is tracked, release the pty
handle and the activity stamps, then broadcast the exit notice.  Note the
notice is broadcast only — it is never passed to `appendScrollback`. -/
def ptyOnExit (s : ServerState) (id : String) (exitCode : Nat) (now : Nat) :
    ServerState × List Event :=
  let active :=
    match lookupA s.activeSessions id with
    | some sess => updA s.activeSessions id
        { sess with status := if exitCode = 0 then .done else .error, lastActivity := now }
    | none => s.activeSessions
  ({ s with
      activeSessions := active
      ptyProcesses := eraseP s.ptyProcesses id
      lastOutputTime := eraseA s.lastOutputTime id
      lastInputTime := eraseA s.lastInputTime id },
    [.broadcast id (exitNotice exitCode)])

/-- The per-session body of the periodic status sweep (server.js lines
569-584): terminal statuses are left alone; a tracked session with no pty
handle becomes `error`; a `running` session silent longer than
`IDLE_TIMEOUT_MS` becomes `idle`. -/
def sweepSession (s : ServerState) (now : Nat) (id : String) (sess : SessionRec) :
    SessionRec :=
  if sess.status = .done ∨ sess.status = .error then sess
  else if id ∉ s.ptyProcesses then { sess with status := .error }
  else
    if now - ((lookupA s.lastOutputTime id).getD 0) > IDLE_TIMEOUT_MS ∧ sess.status = .running
    then { sess with status := .idle }
    else sess

/-- server.js lines 567-585: one tick of the 5s status interval, applying
`sweepSession` to every tracked session. -/
def statusSweep (s : ServerState) (now : Nat) : ServerState :=
  { s with activeSessions := s.activeSessions.map (fun p => (p.1, sweepSession s now p.1 p.2)) }

/-- server.js lines 680-714, the DELETE handler: kill and release the pty
handle when present, kill the tmux session, close every connected observer
channel, then drop all six map entries. -/
def deleteSession (s : ServerState) (id : String) : ServerState × List Event :=
  let killEvents := if id ∈ s.ptyProcesses then [Event.killPty id] else []
  let closeEvents := ((lookupA s.wsClients id).getD []).map Event.closeWs
  ({ s with
      activeSessions := eraseA s.activeSessions id
      ptyProcesses := eraseP s.ptyProcesses id
      scrollbackBuffers := eraseA s.scrollbackBuffers id
      wsClients := eraseA s.wsClients id
      lastOutputTime := eraseA s.lastOutputTime id
      lastInputTime := eraseA s.lastInputTime id },
    killEvents ++ [Event.killTmux id] ++ closeEvents)

/-- The projection of a `JSON.parse` result onto the three fields the resize
branch reads (`cmd.type`, `cmd.cols`, `cmd.rows`); `none` fields model absent
or non-string/non-number values, which are falsy in the source's test. -/
structure ResizeCmd where
  type : Option Str := none
  cols : Option Nat := none
  rows : Option Nat := none
deriving DecidableEq, Repr

/-- server.js line 940: the textual control-frame test — first character is
an opening brace and the quoted substrings "type" and "resize" both occur. -/
def looksLikeResize (msg : Str) : Bool :=
  msg.head? == some '\x7b' && occurs ("\"type\"".toList) msg && occurs ("\"resize\"".toList) msg

/-- server.js lines 960-971, the raw-input tail of the message handler: write
the frame to the pty when a handle exists (stamping activity and status
`running` on the tracked session), otherwise drop it. -/
def rawInput (s : ServerState) (id : String) (msg : Str) (now : Nat) :
    ServerState × List Event :=
  if id ∈ s.ptyProcesses then
    let s1 :=
      match lookupA s.activeSessions id with
      | some sess =>
        { s with
          activeSessions := updA s.activeSessions id
            { sess with lastActivity := now, status := .running }
          lastInputTime := updA s.lastInputTime id now }
      | none => s
    (s1, [Event.writePty id msg])
  else (s, [])

/-- server.js lines 936-972, the WebSocket message handler: frames passing
`looksLikeResize` are JSON-parsed (the parser is abstracted as `parse`; every
theorem below holds for all parsers); a parsed command with type `resize` and
truthy (nonzero) `cols` and `rows` resizes the pty (when attached) and the
tmux window; every other outcome — parse failure, wrong type, falsy
dimensions, or a frame failing the textual test — falls through to
`rawInput`. -/
def handleWsMessage (parse : Str → Option ResizeCmd) (s : ServerState) (id : String)
    (msg : Str) (now : Nat) : ServerState × List Event :=
  if looksLikeResize msg then
    match parse msg with
    | some cmd =>
      match cmd.type, cmd.cols, cmd.rows with
      | some t, some c, some r =>
        if t == "resize".toList ∧ c ≠ 0 ∧ r ≠ 0 then
          (s, (if id ∈ s.ptyProcesses then [Event.resizePty id c r] else [])
              ++ [Event.resizeTmux id c r])
        else rawInput s id msg now
      | _, _, _ => rawInput s id msg now
    | none => rawInput s id msg now
  else rawInput s id msg now

/-- Concrete fixture: the live record of a running session with no preview. -/
def recA : SessionRec :=
  { status := .running, lastActivity := 0, preview := none, workingDir := homeDir }

/-- Concrete fixture: a relay state tracking one session `a` with a pty
handle, a small scrollback and one connected observer channel `7`. -/
def stateA : ServerState :=
  { activeSessions := [("a", recA)]
    ptyProcesses := ["a"]
    scrollbackBuffers := [("a", "hi".toList)]
    wsClients := [("a", [7])]
    lastOutputTime := [("a", 0)]
    lastInputTime := [] }

/-- Concrete fixture: an on-disk catalog record for session `a` that passes
every filter of `loadSessionIndex`. -/
def entryA : CatalogEntry :=
  { sessionId := "a", firstPrompt := some ("hello there".toList), summary := none,
    created := 0, modified := 0, isSidechain := false,
    projectPath := some ("/tmp/w".toList), messageCount := 2 }

/-- Concrete fixture: the reachable state in which session `a` was created
(status `running`, no pty handle yet — the delayed attach has not fired) and
one sweep tick then ran. -/
def stateSweep : ServerState := statusSweep (createSession emptyState "a" none 0) 5000

/-- Concrete fixture: a frame passing the textual control-frame test. -/
def msgResizeBad : Str := "\x7b\"type\":\"resize\"".toList

/-! ### Association-list and sorting lemmas -/

theorem lookupA_updA_self {α β : Type} [DecidableEq α] (l : List (α × β)) (k : α) (v : β) :
    lookupA (updA l k v) k = some v := by
  induction l with
  | nil => simp [updA, lookupA]
  | cons p t ih =>
    obtain ⟨a, b⟩ := p
    by_cases h : a = k
    · simp [updA, h, lookupA]
    · simp [updA, h, lookupA, ih]

theorem lookupA_updA_ne {α β : Type} [DecidableEq α] (l : List (α × β)) (k k' : α) (v : β)
    (h : k' ≠ k) : lookupA (updA l k v) k' = lookupA l k' := by
  have hne : ∀ a : α, a = k → ¬ a = k' := fun a ha hk => h (hk ▸ ha)
  induction l with
  | nil =>
    simp only [updA, lookupA]
    rw [if_neg (hne k rfl)]
  | cons p t ih =>
    obtain ⟨a, b⟩ := p
    by_cases ha : a = k
    · subst ha
      simp only [updA, if_pos rfl, lookupA]
      rw [if_neg (hne a rfl), if_neg (hne a rfl)]
    · simp [updA, ha, lookupA, ih]

theorem lookupA_eraseA_self {α β : Type} [DecidableEq α] (l : List (α × β)) (k : α) :
    lookupA (eraseA l k) k = none := by
  induction l with
  | nil => rfl
  | cons p t ih =>
    obtain ⟨a, b⟩ := p
    by_cases h : a = k
    · subst h
      simpa [eraseA, List.filter_cons] using ih
    · simpa [eraseA, List.filter_cons, h, lookupA] using ih

theorem not_mem_eraseP_self (l : List String) (id : String) : id ∉ eraseP l id := by
  intro h
  have := (List.mem_filter.mp h).2
  simp at this

theorem lookupA_mapVal {β γ : Type} (l : List (String × β)) (f : String → β → γ) (k : String) :
    lookupA (l.map (fun p => (p.1, f p.1 p.2))) k = (lookupA l k).map (fun v => f k v) := by
  induction l with
  | nil => rfl
  | cons p t ih =>
    obtain ⟨a, b⟩ := p
    by_cases h : a = k
    · subst h
      simp [lookupA]
    · simp [lookupA, h, ih]

theorem mem_insertView (x v : SessionView) (l : List SessionView) :
    x ∈ insertView v l ↔ x = v ∨ x ∈ l := by
  induction l with
  | nil => simp [insertView]
  | cons w t ih =>
    by_cases h : viewBefore v w
    · simp [insertView, h]
    · simp [insertView, h, ih]
      tauto

theorem mem_sortViews (x : SessionView) (l : List SessionView) :
    x ∈ sortViews l ↔ x ∈ l := by
  induction l with
  | nil => simp [sortViews]
  | cons w t ih =>
    have hstep : sortViews (w :: t) = insertView w (sortViews t) := rfl
    rw [hstep, mem_insertView, ih]
    simp

theorem applyMeta_id (meta : MetaStore) (v : SessionView) : (applyMeta meta v).id = v.id := rfl

theorem toView_id (s : ServerState) (now : Nat) (e : CatalogEntry) :
    (toView s now e).id = e.sessionId := rfl

theorem mem_loadSessionIndex_id (catalog : List CatalogEntry) (meta : MetaStore)
    (s : ServerState) (now : Nat) (b : Bool) (v : SessionView)
    (h : v ∈ loadSessionIndex catalog meta s now b) :
    ∃ e ∈ collectEntries catalog, v.id = e.sessionId := by
  cases b with
  | true =>
    simp [loadSessionIndex, mem_sortViews] at h
    obtain ⟨e, he, hv⟩ := h
    exact ⟨e, he, by rw [← hv]; rfl⟩
  | false =>
    simp [loadSessionIndex, mem_sortViews] at h
    obtain ⟨⟨e, he, hv⟩, -⟩ := h
    exact ⟨e, he, by rw [← hv]; rfl⟩

/-! ### Scrollback buffer lemmas -/

theorem scrollStep_drop (C : Nat) (h d : Str) :
    scrollStep C (h.drop (h.length - C)) d = (h ++ d).drop ((h ++ d).length - C) := by
  have hle : h.length - C ≤ h.length := Nat.sub_le _ _
  have h1 : h.drop (h.length - C) ++ d = (h ++ d).drop (h.length - C) :=
    (List.drop_append_of_le_length hle).symm
  have hlen : ((h ++ d).drop (h.length - C)).length = h.length + d.length - (h.length - C) := by
    simp [List.length_drop, List.length_append]
  simp only [scrollStep, h1]
  by_cases hc : ((h ++ d).drop (h.length - C)).length > C
  · rw [if_pos hc, List.drop_drop]
    congr 1
    rw [hlen] at hc
    simp only [hlen, List.length_append]
    omega
  · rw [if_neg hc]
    rw [hlen] at hc
    have hidx : h.length - C = (h ++ d).length - C := by
      simp only [List.length_append]
      omega
    rw [hidx]

theorem scrollFold (C : Nat) (chunks : List Str) :
    ∀ h : Str, chunks.foldl (scrollStep C) (h.drop (h.length - C))
      = (h ++ chunks.flatten).drop ((h ++ chunks.flatten).length - C) := by
  induction chunks with
  | nil => intro h; simp
  | cons d t ih =>
    intro h
    have h1 : List.foldl (scrollStep C) (h.drop (h.length - C)) (d :: t)
        = List.foldl (scrollStep C) (scrollStep C (h.drop (h.length - C)) d) t := rfl
    rw [h1, scrollStep_drop, ih (h ++ d)]
    simp [List.append_assoc]

theorem scrollMapFold (C : Nat) (id : String) (chunks : List Str) :
    ∀ (bufs : List (String × Str)) (b : Str), lookupA bufs id = some b →
      lookupA (chunks.foldl (fun bs data => appendScrollbackC C bs id data) bufs) id
        = some (chunks.foldl (scrollStep C) b) := by
  induction chunks with
  | nil => intro bufs b hb; simpa using hb
  | cons d t ih =>
    intro bufs b hb
    have h1 : List.foldl (fun bs data => appendScrollbackC C bs id data) bufs (d :: t)
        = List.foldl (fun bs data => appendScrollbackC C bs id data)
            (appendScrollbackC C bufs id d) t := rfl
    rw [h1]
    have h2 : lookupA (appendScrollbackC C bufs id d) id = some (scrollStep C b d) := by
      simp [appendScrollbackC, hb, lookupA_updA_self]
    simpa using ih (appendScrollbackC C bufs id d) (scrollStep C b d) h2

/-- C2: for every sequence of appends into one session's scrollback buffer
(starting from the empty buffer a session is created with), the retained
bytes are exactly the last `min C total` bytes of the concatenated append
history — a suffix of it — and in particular the buffer never exceeds the
capacity `C`.  Quantifying over all `chunks` covers the state after every
call of the sequence. -/
theorem c2_scrollback_trim_suffix (C : Nat) (id : String) (chunks : List Str) :
    lookupA (chunks.foldl (fun bs data => appendScrollbackC C bs id data) [(id, [])]) id
      = some (chunks.flatten.drop (chunks.flatten.length - C))
    ∧ (chunks.flatten.drop (chunks.flatten.length - C)).length = min C chunks.flatten.length
    ∧ (chunks.flatten.drop (chunks.flatten.length - C)).length ≤ C
    ∧ chunks.flatten.drop (chunks.flatten.length - C) <:+ chunks.flatten := by
  refine ⟨?_, ?_, ?_, ?_⟩
  · have h0 : lookupA [(id, ([] : Str))] id = some ([] : Str) := by simp [lookupA]
    rw [scrollMapFold C id chunks [(id, [])] [] h0]
    have h3 := scrollFold C chunks []
    simp only [List.length_nil, Nat.zero_sub, List.drop_zero, List.nil_append] at h3
    rw [h3]
  · rw [List.length_drop]
    omega
  · rw [List.length_drop]
    omega
  · exact List.drop_suffix _ _

/-! ### Record-projection lemmas for the metadata overlay -/

theorem applyMeta_status (meta : MetaStore) (v : SessionView) :
    (applyMeta meta v).status = v.status := rfl

theorem applyMeta_lastActivity (meta : MetaStore) (v : SessionView) :
    (applyMeta meta v).lastActivity = v.lastActivity := rfl

theorem applyMeta_preview (meta : MetaStore) (v : SessionView) :
    (applyMeta meta v).preview = v.preview := rfl

/-! ### Claim theorems -/

/-- C1 (amended): after `deleteSession` returns, no pty handle for the id
remains registered, every previously attached observer channel has been
closed, and `getSession` returns NotFound provided the discovered catalog
holds no record for the id — the DELETE handler never removes on-disk
catalog records, so a catalog-backed session stays visible to `getSession`. -/
theorem c1_delete_teardown (s : ServerState) (id : String) (catalog : List CatalogEntry)
    (meta : MetaStore) (now : Nat) :
    id ∉ (deleteSession s id).1.ptyProcesses
    ∧ (∀ ch ∈ (lookupA s.wsClients id).getD [], Event.closeWs ch ∈ (deleteSession s id).2)
    ∧ ((∀ e ∈ collectEntries catalog, e.sessionId ≠ id) →
        getSession catalog meta (deleteSession s id).1 now id = none) := by
  refine ⟨?_, ?_, ?_⟩
  · simpa [deleteSession] using not_mem_eraseP_self s.ptyProcesses id
  · intro ch hch
    simp only [deleteSession]
    exact List.mem_append.mpr (Or.inr (List.mem_map_of_mem _ hch))
  · intro hcat
    unfold getSession
    apply List.find?_eq_none.mpr
    intro v hv
    obtain ⟨e, he, hid⟩ := mem_loadSessionIndex_id _ _ _ _ _ _ hv
    simp [hid]
    exact hcat e he

/-- Witness for C1 at the concrete fixture: observer channel 7 is closed and,
with an empty catalog, the session is gone from `getSession` after deletion. -/
theorem c1_delete_teardown_witness :
    Event.closeWs 7 ∈ (deleteSession stateA "a").2
    ∧ getSession [] [] (deleteSession stateA "a").1 1000 "a" = none := by
  have h := c1_delete_teardown stateA "a" [] [] 1000
  exact ⟨h.2.1 7 (by decide), h.2.2 (by decide)⟩

/-- C1 counterexample: with the catalog record `entryA` for session `a` still
on disk, `getSession` still finds the session after `deleteSession` — the
claim's "get(id) returns NotFound after delete(id)" is false. -/
theorem c1_delete_get_cex :
    (getSession [entryA] [] (deleteSession stateA "a").1 1000 "a").isSome = true := by
  decide

/-- C3 (amended): for pty output data events the chunk is appended to the
scrollback strictly before it is broadcast (the event trace lists the append
first); the synthesized exit notice, by contrast, is broadcast without any
scrollback append. -/
theorem c3_output_order (previewOf : Str → Option Str) (s : ServerState) (id : String)
    (data : Str) (now : Nat) (sess : SessionRec) (exitCode : Nat)
    (hs : lookupA s.activeSessions id = some sess) :
    (ptyOnData previewOf s id data now).2 = [Event.append id data, Event.broadcast id data]
    ∧ (ptyOnExit s id exitCode now).2 = [Event.broadcast id (exitNotice exitCode)] := by
  constructor
  · simp [ptyOnData, hs]
  · simp [ptyOnExit]

/-- Witness for C3 at the concrete fixture: the data-event trace is the
append followed by the broadcast. -/
theorem c3_output_order_witness :
    (ptyOnData (fun _ => none) stateA "a" ("hi".toList) 5).2
      = [Event.append "a" ("hi".toList), Event.broadcast "a" ("hi".toList)] :=
  (c3_output_order (fun _ => none) stateA "a" ("hi".toList) 5 recA 0 (by decide)).1

/-- C3 counterexample: `ptyOnExit` broadcasts the exit notice but the
scrollback buffer is left unchanged and does not contain the notice, so the
notice reaches observers without ever being appended to the scrollback. -/
theorem c3_exit_notice_cex :
    Event.broadcast "a" (exitNotice 1) ∈ (ptyOnExit stateA "a" 1 5).2
    ∧ lookupA (ptyOnExit stateA "a" 1 5).1.scrollbackBuffers "a" = some ("hi".toList)
    ∧ occurs (exitNotice 1) ("hi".toList) = false := by
  refine ⟨by decide, by decide, by decide⟩

/-- C4: when the exit event fires for a tracked session holding a pty handle,
the session's status becomes done for exit code 0 and error otherwise, the
handle is removed from the process map, and the human-readable exit notice is
broadcast so attached observers see the exit inline. -/
theorem c4_exit_event (s : ServerState) (id : String) (exitCode now : Nat) (sess : SessionRec)
    (hs : lookupA s.activeSessions id = some sess) (hp : id ∈ s.ptyProcesses) :
    lookupA (ptyOnExit s id exitCode now).1.activeSessions id
      = some { sess with status := (if exitCode = 0 then Status.done else Status.error), lastActivity := now }
    ∧ id ∉ (ptyOnExit s id exitCode now).1.ptyProcesses
    ∧ Event.broadcast id (exitNotice exitCode) ∈ (ptyOnExit s id exitCode now).2 := by
  refine ⟨?_, ?_, ?_⟩
  · simp [ptyOnExit, hs, lookupA_updA_self]
  · simpa [ptyOnExit] using not_mem_eraseP_self s.ptyProcesses id
  · simp [ptyOnExit]

/-- Witness for C4 at the concrete fixture with exit code 0: status done,
handle gone. -/
theorem c4_exit_event_witness :
    lookupA (ptyOnExit stateA "a" 0 9).1.activeSessions "a"
      = some { recA with status := Status.done, lastActivity := 9 }
    ∧ "a" ∉ (ptyOnExit stateA "a" 0 9).1.ptyProcesses := by
  have h := c4_exit_event stateA "a" 0 9 recA (by decide) (by decide)
  exact ⟨by simpa using h.1, h.2.1⟩

/-- C5 (amended): `deriveStatus` branches on membership in the live
`activeSessions` table, not on pty-handle presence: with no table entry the
catalog-timestamp heuristic applies (age < 60s running, age < 300s done,
otherwise idle); with a table entry the live status field is returned,
whether or not a pty handle exists. -/
theorem c5_deriveStatus_table (s : ServerState) (e : CatalogEntry) (now : Nat) :
    (lookupA s.activeSessions e.sessionId = none →
      deriveStatus s e now =
        (if now - e.modified < 60000 then Status.running
         else if now - e.modified < 300000 then Status.done else Status.idle))
    ∧ (∀ sess, lookupA s.activeSessions e.sessionId = some sess →
        deriveStatus s e now = sess.status) := by
  constructor
  · intro h
    simp [deriveStatus, h]
  · intro sess h
    simp [deriveStatus, h]

/-- Witness for C5: the heuristic yields idle for a 400s-old record with no
table entry, and the live status running wins for the tracked fixture. -/
theorem c5_deriveStatus_table_witness :
    deriveStatus emptyState entryA 400000 = Status.idle
    ∧ deriveStatus stateA entryA 400000 = Status.running := by
  have h1 := (c5_deriveStatus_table emptyState entryA 400000).1 (by decide)
  have h2 := (c5_deriveStatus_table stateA entryA 400000).2 recA (by decide)
  exact ⟨h1.trans (by decide), h2.trans (by decide)⟩

/-- C5 counterexample: session `a` was created and swept once without its
delayed attach ever registering a pty handle, so it has had no ProcessHandle
this relay lifetime; the claim's heuristic predicts idle for its 400s-old
catalog record, but `deriveStatus` returns the live table status error. -/
theorem c5_heuristic_cex :
    stateSweep.ptyProcesses = [] ∧ deriveStatus stateSweep entryA 400000 = Status.error := by
  exact ⟨rfl, by decide⟩

/-- C6 (amended): a session created through the POST handler starts with
status running; a successful reattach leaves an existing live entry's status
unchanged and registers a missing one with status idle (running arrives only
with the first output event). -/
theorem c6_spawn_reattach_status (s : ServerState) (id : String) (wd : Option Str) (now : Nat) :
    (lookupA (createSession s id wd now).activeSessions id
      = some { status := Status.running, lastActivity := now, preview := none, workingDir := wd.getD homeDir })
    ∧ (lookupA s.activeSessions id = none →
        (reattachSession s id true wd now).1 = true
        ∧ lookupA (reattachSession s id true wd now).2.activeSessions id
          = some { status := Status.idle, lastActivity := now, preview := none, workingDir := wd.getD homeDir })
    ∧ (∀ sess, lookupA s.activeSessions id = some sess →
        lookupA (reattachSession s id true wd now).2.activeSessions id = some sess) := by
  refine ⟨?_, ?_, ?_⟩
  · simp [createSession, lookupA_updA_self]
  · intro h
    exact ⟨rfl, by simp [reattachSession, h, lookupA_updA_self]⟩
  · intro sess h
    simp [reattachSession, h]

/-- Witness for C6: creating session `a` yields status running; reattaching
an untracked session `a` yields a live entry with status idle. -/
theorem c6_spawn_reattach_status_witness :
    lookupA (createSession emptyState "a" none 3).activeSessions "a"
      = some { status := Status.running, lastActivity := 3, preview := none, workingDir := homeDir }
    ∧ lookupA (reattachSession emptyState "a" true none 3).2.activeSessions "a"
      = some { status := Status.idle, lastActivity := 3, preview := none, workingDir := homeDir } := by
  have h := c6_spawn_reattach_status emptyState "a" none 3
  exact ⟨h.1, (h.2.1 (by decide)).2⟩

/-- C6 counterexample: a successful reattach of a session missing from the
live table yields status idle, not running as the claim states. -/
theorem c6_reattach_idle_cex :
    (reattachSession emptyState "a" true none 7).1 = true
    ∧ (lookupA (reattachSession emptyState "a" true none 7).2.activeSessions "a").map
        SessionRec.status = some Status.idle := by
  decide

/-- C7 (amended): the session list is built from the discovered catalog
records; for a catalog record whose session is also in the live table, the
returned view carries the live status, lastActivity, and (when set and
non-empty) preview instead of the catalog values.  Sessions present only in
the live table produce no list record. -/
theorem c7_list_merge (catalog : List CatalogEntry) (meta : MetaStore) (s : ServerState)
    (now : Nat) (e : CatalogEntry) (sess : SessionRec)
    (he : e ∈ collectEntries catalog)
    (hs : lookupA s.activeSessions e.sessionId = some sess) :
    ∃ v ∈ loadSessionIndex catalog meta s now true,
      v.id = e.sessionId ∧ v.status = sess.status ∧ v.lastActivity = sess.lastActivity
      ∧ (∀ p, sess.preview = some p → p.isEmpty = false → v.preview = p) := by
  refine ⟨applyMeta meta (toView s now e), ?_, rfl, ?_, ?_, ?_⟩
  · simp [loadSessionIndex, mem_sortViews]
    exact ⟨e, he, rfl⟩
  · rw [applyMeta_status]
    simp [toView, deriveStatus, hs]
  · rw [applyMeta_lastActivity]
    simp [toView, hs]
  · intro p hp hpe
    rw [applyMeta_preview]
    simp [toView, hs, hp, hpe]

/-- Witness for C7: with the fixture catalog record and the live fixture
state, the list carries the live status running and lastActivity 0 even
though the record's 400s age would put the heuristic at idle. -/
theorem c7_list_merge_witness :
    ∃ v ∈ loadSessionIndex [entryA] [] stateA 400000 true,
      v.id = "a" ∧ v.status = Status.running ∧ v.lastActivity = 0 := by
  obtain ⟨v, hv, hid, hst, hla, -⟩ :=
    c7_list_merge [entryA] [] stateA 400000 entryA recA (by decide) (by decide)
  exact ⟨v, hv, hid, hst.trans (by decide), hla.trans (by decide)⟩

/-- C7 counterexample: a freshly created session sits in the live table but
the session list, built from the (here empty) catalog, has no record for it —
the claim's "list includes a record for every live-table session" is false. -/
theorem c7_live_only_missing_cex :
    (lookupA (createSession emptyState "a" none 3).activeSessions "a").isSome = true
    ∧ loadSessionIndex [] [] (createSession emptyState "a" none 3) 3 false = [] := by
  exact ⟨by decide, rfl⟩

/-- C8: a frame is handled as a resize control frame only if it passes the
textual test (leading opening brace and both quoted substrings "type" and
"resize"); a frame passing the test whose JSON parse fails is silently
handled by the raw-input path, as is any frame failing the test.  The parser
is universally quantified, so this holds whatever `JSON.parse` accepts. -/
theorem c8_ws_frame_routing (parse : Str → Option ResizeCmd) (s : ServerState) (id : String)
    (msg : Str) (now : Nat) :
    ((handleWsMessage parse s id msg now).2.any isResizeEvent = true →
      looksLikeResize msg = true)
    ∧ (looksLikeResize msg = true → parse msg = none →
        handleWsMessage parse s id msg now = rawInput s id msg now)
    ∧ (looksLikeResize msg = false →
        handleWsMessage parse s id msg now = rawInput s id msg now) := by
  have hraw : (rawInput s id msg now).2.any isResizeEvent = false := by
    by_cases hp : id ∈ s.ptyProcesses
    · simp [rawInput, hp, isResizeEvent]
    · simp [rawInput, hp]
  refine ⟨?_, ?_, ?_⟩
  · intro h
    cases hb : looksLikeResize msg with
    | true => rfl
    | false =>
      have heq : handleWsMessage parse s id msg now = rawInput s id msg now := by
        simp [handleWsMessage, hb]
      rw [heq, hraw] at h
      cases h
  · intro ht hp
    simp [handleWsMessage, ht, hp]
  · intro ht
    simp [handleWsMessage, ht]

/-- Witness for C8: a frame passing the textual test whose parse fails is
routed to the raw-input path. -/
theorem c8_ws_frame_routing_witness :
    looksLikeResize msgResizeBad = true
    ∧ handleWsMessage (fun _ => none) emptyState "a" msgResizeBad 9
        = rawInput emptyState "a" msgResizeBad 9 := by
  have h := c8_ws_frame_routing (fun _ => none) emptyState "a" msgResizeBad 9
  exact ⟨by decide, h.2.1 (by decide) rfl⟩

/-- C9: a sweep tick sets status error for every tracked session that is not
already done or error and has no registered pty handle — the sweep does not
distinguish an in-flight spawn from a crashed process. -/
theorem c9_sweep_error (s : ServerState) (now : Nat) (id : String) (sess : SessionRec)
    (hs : lookupA s.activeSessions id = some sess)
    (hd : sess.status ≠ Status.done) (he : sess.status ≠ Status.error)
    (hp : id ∉ s.ptyProcesses) :
    lookupA (statusSweep s now).activeSessions id = some { sess with status := Status.error } := by
  simp only [statusSweep]
  rw [lookupA_mapVal, hs]
  simp [sweepSession, hd, he, hp]

/-- Witness for C9 on the reachable fixture: the freshly created session `a`
(status running, delayed attach not yet fired) is flagged error by the sweep. -/
theorem c9_sweep_error_witness :
    lookupA stateSweep.activeSessions "a"
      = some { status := Status.error, lastActivity := 0, preview := none, workingDir := homeDir } := by
  have h := c9_sweep_error (createSession emptyState "a" none 0) 5000 "a"
    { status := Status.running, lastActivity := 0, preview := none, workingDir := homeDir }
    (by decide) (by decide) (by decide) (by decide)
  simpa [stateSweep] using h

/-- C10: for a session with no live-table entry the derived status is always
one of running, done, idle — the catalog-timestamp heuristic can never
produce error. -/
theorem c10_heuristic_no_error (s : ServerState) (e : CatalogEntry) (now : Nat)
    (h : lookupA s.activeSessions e.sessionId = none) :
    deriveStatus s e now = Status.running ∨ deriveStatus s e now = Status.done
    ∨ deriveStatus s e now = Status.idle := by
  simp only [deriveStatus, h]
  by_cases h1 : now - e.modified < 60000
  · simp [h1]
  · by_cases h2 : now - e.modified < 300000
    · simp [h1, h2]
    · simp [h1, h2]

/-- Witness for C10 on the fixture catalog record at age 70s with an empty
state. -/
theorem c10_heuristic_no_error_witness :
    deriveStatus emptyState entryA 70000 = Status.running
    ∨ deriveStatus emptyState entryA 70000 = Status.done
    ∨ deriveStatus emptyState entryA 70000 = Status.idle :=
  c10_heuristic_no_error emptyState entryA 70000 (by decide)
